import Mathlib

/-!
Shallow embedding of the per-call session logic of the media gateway
(`src/agent-starter-node/src/pbx_agent_server.ts`, class `CallSession`, with the
matching `WavRoundtripSession` variant).  Machine-level details are modelled as
follows: JavaScript strings become `String`, `Int16Array` sample buffers become
`List Int` with explicit 16-bit wrapping where an element is stored, byte
buffers become `List Nat`, and the real-valued (IEEE double) arithmetic used by
`Math.floor(x / y)` and the VAD average is modelled exactly with `ℚ` (all
intermediate values in the source are small integers, so double rounding never
changes the comparisons and floors modelled here).
-/

namespace MediaGateway

/-- JavaScript `String.prototype.trim()`: strip leading and trailing
whitespace.  Modelled over the character data of the string. -/
def jsTrim (s : String) : String :=
  ⟨((s.data.dropWhile Char.isWhitespace).reverse.dropWhile Char.isWhitespace).reverse⟩

/-- Chat roles, from `type Role = 'system' | 'user' | 'assistant'`. -/
inductive Role
  | system
  | user
  | assistant
deriving DecidableEq

/-- `interface ChatMessage { role: Role; content: string }`. -/
structure ChatMessage where
  role : Role
  content : String
deriving DecidableEq

/-! ## VAD classification (`CallSession.isSilent`) -/

/-- `CallSession.isSilent`: returns `true` for an empty frame, otherwise
compares the mean absolute sample value (`sum / samples.length`, exact real
division, modelled in `ℚ`) against `VAD_THRESHOLD = 500`. -/
def isSilent (samples : List Int) : Bool :=
  if samples.length = 0 then true
  else
    let sum : Nat := (samples.map Int.natAbs).sum
    let avg : ℚ := (sum : ℚ) / (samples.length : ℚ)
    decide (avg < 500)

/-! ## Silence-timer state machine (`CallSession.handleIncomingAudio`,
VAD + silence handling block, and the silence-timeout callback) -/

/-- The session's per-call VAD state: `silenceTimer` counts the pending
silence timers (the source holds a nullable timer handle, so `0` models
`null` and `1` models a pending timer; a count makes "at most one pending"
expressible), and `lastNonSilentTime` is the recorded last-speech time
(`0` = never recorded, the field's initial value). -/
structure VadState where
  silenceTimer : Nat
  lastNonSilentTime : Nat
deriving DecidableEq

/-- Fields are initialised to `silenceTimer = null`, `lastNonSilentTime = 0`. -/
def initVadState : VadState :=
  { silenceTimer := 0, lastNonSilentTime := 0 }

/-- The VAD + silence-handling block run on each inbound frame: on speech,
record `now` and clear any pending timer; on silence, start a timer only if
none is pending (`!this.silenceTimer`) and speech has been heard
(`this.lastNonSilentTime !== 0`). -/
def handleFrameVad (st : VadState) (samples : List Int) (now : Nat) : VadState :=
  if ! isSilent samples then
    { silenceTimer := 0, lastNonSilentTime := now }
  else
    if st.silenceTimer = 0 ∧ st.lastNonSilentTime ≠ 0 then
      { st with silenceTimer := st.silenceTimer + 1 }
    else st

/-- The silence-timeout callback's effect on the VAD state: it finishes with
`this.silenceTimer = null; this.lastNonSilentTime = 0`. -/
def onSilenceTimerExpiry (_ : VadState) : VadState :=
  { silenceTimer := 0, lastNonSilentTime := 0 }

/-- A VAD-relevant session event: an inbound audio frame (with the value of
`Date.now()` at that moment) or the expiry of the silence timer. -/
inductive VadEvent
  | frame (samples : List Int) (now : Nat)
  | timerExpiry

/-- One step of the VAD state machine. -/
def vadStep (st : VadState) (ev : VadEvent) : VadState :=
  match ev with
  | .frame samples now => handleFrameVad st samples now
  | .timerExpiry => onSilenceTimerExpiry st

/-- Run a whole event sequence from the fresh session state. -/
def runVad (events : List VadEvent) : VadState :=
  events.foldl vadStep initVadState

/-! ## Session close and the closed-flag gate (`CallSession.close`,
`ws.on('message')` handler) -/

/-- The resources `CallSession.close` interacts with: the `closed` flag, the
nullable STT stream handle (`sttOpen` = handle present) and the nullable
silence timer (`timerPending` = timer pending). -/
structure SessionRes where
  closed : Bool
  sttOpen : Bool
  timerPending : Bool
deriving DecidableEq

/-- `CallSession.close()`: if `closed` is already set, return immediately;
otherwise set `closed`, end and null the STT stream (the returned flag records
whether this invocation released the handle), and close the transport.  The
silence timer field is not touched by `close`. -/
def close (s : SessionRes) : SessionRes × Bool :=
  if s.closed then (s, false)
  else ({ closed := true, sttOpen := false, timerPending := s.timerPending }, s.sttOpen)

/-- The `ws.on('message')` handler gate: when `closed` is set the message is
ignored, otherwise the frame is processed (`handleIncomingAudio` advances
`audioFrameCount`).  Returns the new frame count. -/
def onBinaryMessage (s : SessionRes) (audioFrameCount : Nat) : Nat :=
  if s.closed then audioFrameCount else audioFrameCount + 1

/-! ## Final-transcript handling (`CallSession.handleSttEvents`,
FINAL_TRANSCRIPT branch) -/

/-- The FINAL_TRANSCRIPT branch of the STT event loop:
`const text = ev.alternatives?.[0]?.text?.trim(); if (!text) continue;` —
the argument is `ev.alternatives?.[0]?.text` (absent alternatives modelled as
`none`).  Returns the updated history and whether `respondToUser` was
invoked; on an absent or empty-after-trim text nothing happens. -/
def handleFinalTranscript (messages : List ChatMessage) (alt : Option String) :
    List ChatMessage × Bool :=
  match alt with
  | none => (messages, false)
  | some raw =>
    let text := jsTrim raw
    if text = "" then (messages, false)
    else (messages ++ [{ role := Role.user, content := text }], true)

/-! ## LLM response generation (`CallSession.callLlm`,
`CallSession.respondToUser`) -/

/-- One streamed LLM fragment: `deltaContent` is `chunk.delta.content` when
present as a string, `outputTextDelta` is `chunk.output_text.delta` when
present as a string; both fields are checked on every fragment. -/
structure LlmChunk where
  deltaContent : Option String
  outputTextDelta : Option String
deriving DecidableEq

/-- One item observed by the `for await` loop over the LLM stream: either the
next chunk, or the stream throwing at that point (which aborts iteration). -/
inductive LlmStreamItem
  | chunk (c : LlmChunk)
  | streamError

/-- The text the loop body appends to `fullText` for one chunk.  An absent
field contributes nothing (the source also skips a falsy empty
`output_text.delta`, which appends the empty string either way). -/
def chunkText (c : LlmChunk) : String :=
  c.deltaContent.getD "" ++ c.outputTextDelta.getD ""

/-- The `for await (const chunk of stream)` accumulation loop inside its
`try`/`catch`: chunks are consumed in order, appending to the accumulator;
a thrown error ends the loop (the `catch` only logs) with the text collected
so far. -/
def llmAccum : String → List LlmStreamItem → String
  | acc, [] => acc
  | acc, .chunk c :: rest => llmAccum (acc ++ chunkText c) rest
  | acc, .streamError :: _ => acc

/-- The fixed fallback reply used when the trimmed LLM output is empty. -/
def llmFallback : String := "Sorry, I had a problem generating a response."

/-- `CallSession.callLlm` after the stream is open: accumulate the deltas
(surviving a mid-stream throw via the `catch`), trim, and substitute the
fallback when the trimmed text is empty. -/
def callLlm (stream : List LlmStreamItem) : String :=
  let fullText := jsTrim (llmAccum "" stream)
  if fullText = "" then llmFallback else fullText

/-- `CallSession.respondToUser`: if closed, do nothing; otherwise obtain the
reply from `callLlm`, append it to the history as an `assistant` message and
hand it to `streamTts`.  The second component is the text synthesized
(`none` when no TTS call happens). -/
def respondToUser (messages : List ChatMessage) (closed : Bool)
    (stream : List LlmStreamItem) : List ChatMessage × Option String :=
  if closed then (messages, none)
  else
    let replyText := callLlm stream
    (messages ++ [{ role := Role.assistant, content := replyText }], some replyText)

/-- The fragments of one chunk in the order the loop body appends them:
`delta.content` first, then `output_text.delta`. -/
def chunkFragments (c : LlmChunk) : List String :=
  c.deltaContent.toList ++ c.outputTextDelta.toList

/-- Concatenation of a fragment list in arrival order. -/
def concatFragments : List String → String
  | [] => ""
  | s :: rest => s ++ concatFragments rest

/-- The concatenation, in arrival order, of the recognized delta fragments of
a chunk sequence. -/
def deltasText (chunks : List LlmChunk) : String :=
  concatFragments ((chunks.map chunkFragments).flatten)

/-! ## Audio normalization (`CallSession.handleIncomingAudio` 16-bit and
stereo branches, `CallSession.resample`) -/

/-- Storing an integer into an `Int16Array` element: wrap to the signed
16-bit range. -/
def toInt16 (v : Int) : Int := (v + 32768) % 65536 - 32768

/-- The value of one little-endian `Int16Array` element over a byte pair of a
Node `Buffer` (bytes lie in `0..255`; `% 256` mirrors that range). -/
def decodeInt16 (lo hi : Nat) : Int :=
  let v := lo % 256 + 256 * (hi % 256)
  if v < 32768 then (v : Int) else (v : Int) - 65536

/-- The 16-bit input branch: `trimmedByteLength = byteLength - (byteLength % 2)`
and an `Int16Array` view of `trimmedByteLength / 2` elements — consecutive
little-endian byte pairs, with an odd trailing byte dropped. -/
def bytesToInt16 : List Nat → List Int
  | lo :: hi :: rest => decodeInt16 lo hi :: bytesToInt16 rest
  | _ => []

/-- The stereo downmix loop: `monoSamples` has `samples.length / 2` elements
and `monoSamples[i] = Math.floor((samples[i*2] + samples[i*2+1]) / 2)` stored
into an `Int16Array`.  For the positive divisor 2, `Math.floor` of the exact
real quotient is integer division rounding toward negative infinity, which is
`Int` division `/` here. -/
def downmixStereo (samples : List Int) : List Int :=
  (List.range (samples.length / 2)).map fun i =>
    toInt16 ((samples.getD (i * 2) 0 + samples.getD (i * 2 + 1) 0) / 2)

/-- `CallSession.resample`: identity at equal rates; otherwise
`ratio = inputRate / outputRate`, `outputLength = Math.floor(input.length / ratio)`,
and `output[i] = input[Math.floor(i * ratio)]` guarded by an index bound, with
unset elements left at the `Int16Array` zero fill.  The real-valued floors are
the exact natural-number divisions used here
(`⌊len / (ir/or)⌋ = len * or / ir` and `⌊i * (ir/or)⌋ = i * ir / or`). -/
def resample (input : List Int) (inputRate outputRate : Nat) : List Int :=
  if inputRate = outputRate then input
  else
    (List.range (input.length * outputRate / inputRate)).map fun i =>
      let index := i * inputRate / outputRate
      if index < input.length then input.getD index 0 else 0

/-! ## Helper lemmas -/

/-- String concatenation is associative (needed to relate the accumulating
LLM loop to the arrival-order concatenation of the fragments). -/
theorem strAppendAssoc (a b c : String) : a ++ b ++ c = a ++ (b ++ c) := by
  apply String.ext
  simp [String.data_append, List.append_assoc]

/-- The empty string is a right identity for concatenation. -/
theorem strAppendEmpty (a : String) : a ++ "" = a := by
  apply String.ext
  simp [String.data_append]

/-- The empty string is a left identity for concatenation. -/
theorem strEmptyAppend (a : String) : "" ++ a = a := by
  apply String.ext
  simp [String.data_append]

/-- `isSilent` expressed with natural-number arithmetic: the mean-based test
`sum / len < 500` is equivalent to `sum < 500 * len` (used to evaluate
concrete frames). -/
theorem isSilent_eq_natCmp (samples : List Int) :
    isSilent samples
      = (decide (samples.length = 0)
          || decide ((samples.map Int.natAbs).sum < 500 * samples.length)) := by
  unfold isSilent
  by_cases h : samples.length = 0
  · simp [h]
  · have hpos : 0 < samples.length := Nat.pos_of_ne_zero h
    simp only [if_neg h, decide_eq_false h, Bool.false_or]
    apply decide_eq_decide.mpr
    rw [div_lt_iff₀ (by positivity)]
    constructor
    · intro hx
      exact_mod_cast hx
    · intro hx
      exact_mod_cast hx

/-- A single VAD step never creates a second pending timer. -/
theorem vadStep_pending_le (st : VadState) (ev : VadEvent)
    (h : st.silenceTimer ≤ 1) : (vadStep st ev).silenceTimer ≤ 1 := by
  cases ev with
  | frame samples now =>
    unfold vadStep handleFrameVad
    by_cases hs : isSilent samples
    · by_cases hc : st.silenceTimer = 0 ∧ st.lastNonSilentTime ≠ 0
      · simp [hs, hc, hc.1]
      · simp [hs, hc]
        exact h
    · simp [hs]
  | timerExpiry =>
    unfold vadStep onSilenceTimerExpiry
    simp

/-- Folding the VAD step over any event sequence preserves "at most one
pending timer". -/
theorem runVad_pending_le (events : List VadEvent) (st : VadState)
    (h : st.silenceTimer ≤ 1) : (events.foldl vadStep st).silenceTimer ≤ 1 := by
  induction events generalizing st with
  | nil => exact h
  | cons ev rest ih =>
    exact ih (vadStep st ev) (vadStep_pending_le st ev h)

/-- The text one chunk contributes equals the concatenation of its
recognized fragments. -/
theorem chunkText_eq_concatFragments (c : LlmChunk) :
    chunkText c = concatFragments (chunkFragments c) := by
  unfold chunkText chunkFragments
  cases hd : c.deltaContent with
  | none =>
    cases ho : c.outputTextDelta with
    | none => simp [concatFragments]
    | some t => simp [concatFragments, strAppendEmpty, strEmptyAppend]
  | some s =>
    cases ho : c.outputTextDelta with
    | none => simp [concatFragments, strAppendEmpty]
    | some t => simp [concatFragments, strAppendEmpty]

/-- Concatenating fragment lists distributes over list append. -/
theorem concatFragments_append (l₁ l₂ : List String) :
    concatFragments (l₁ ++ l₂) = concatFragments l₁ ++ concatFragments l₂ := by
  induction l₁ with
  | nil => simp [concatFragments, strEmptyAppend]
  | cons s rest ih => simp [concatFragments, ih, strAppendAssoc]

/-- The accumulating loop over an error-free chunk sequence produces the
accumulator followed by the arrival-order concatenation of all fragments. -/
theorem llmAccum_chunks (chunks : List LlmChunk) (acc : String) :
    llmAccum acc (chunks.map LlmStreamItem.chunk) = acc ++ deltasText chunks := by
  induction chunks generalizing acc with
  | nil => simp [llmAccum, deltasText, concatFragments, strAppendEmpty]
  | cons c rest ih =>
    simp only [List.map_cons, llmAccum, ih]
    unfold deltasText
    simp only [List.map_cons, List.flatten_cons]
    rw [concatFragments_append, ← chunkText_eq_concatFragments, strAppendAssoc]

/-- The accumulating loop over a stream that throws after a chunk sequence
retains exactly the text collected before the throw. -/
theorem llmAccum_error (chunks : List LlmChunk) (rest : List LlmStreamItem)
    (acc : String) :
    llmAccum acc (chunks.map LlmStreamItem.chunk ++ LlmStreamItem.streamError :: rest)
      = acc ++ deltasText chunks := by
  induction chunks generalizing acc with
  | nil => simp [llmAccum, deltasText, concatFragments, strAppendEmpty]
  | cons c rest' ih =>
    simp only [List.map_cons, List.cons_append, llmAccum, List.append_eq]
    rw [ih]
    unfold deltasText
    simp only [List.map_cons, List.flatten_cons]
    rw [concatFragments_append, ← chunkText_eq_concatFragments, strAppendAssoc]

/-! ## Claim theorems -/

/-- C10: for every empty sample sequence the VAD classifier returns silence;
the mean-amplitude computation is guarded by the explicit length-zero check,
so classification is total (the guard is taken before any division). -/
theorem vad_empty_frame_is_silent (samples : List Int)
    (h : samples.length = 0) : isSilent samples = true := by
  unfold isSilent
  simp [h]

/-- Witness for C10 at the empty frame. -/
theorem vad_empty_frame_is_silent_witness : isSilent [] = true :=
  vad_empty_frame_is_silent [] rfl

/-- C7: resampling with source rate equal to the target rate returns the
input unchanged, for every input and every rate. -/
theorem resample_identity_same_rate (input : List Int) (rate : Nat) :
    resample input rate rate = input := by
  simp [resample]

/-- C2 counterexample: a session with an open STT handle and a pending
silence timer transitions to Closed, the STT handle is released, but the
pending silence timer is NOT released — `close` never touches the timer
field, refuting the claim that both resources are released. -/
theorem close_leaves_silence_timer_pending :
    ((close { closed := false, sttOpen := true, timerPending := true }).1).closed = true
    ∧ ((close { closed := false, sttOpen := true, timerPending := true }).1).sttOpen = false
    ∧ ((close { closed := false, sttOpen := true, timerPending := true }).1).timerPending
        = true := by
  decide

/-- C2 amended: when a session transitions to Closed, the open STT stream
handle is released, and exactly once even if `close` is invoked again,
guarded by the closed flag; the pending silence timer is not cancelled by
`close` (it stays pending until its own expiry); after Closed, inbound
frames are discarded. -/
theorem close_releases_stt_once (s : SessionRes) (h : s.closed = false) :
    (close s).1.closed = true
    ∧ (close s).1.sttOpen = false
    ∧ (close s).2 = s.sttOpen
    ∧ close (close s).1 = ((close s).1, false)
    ∧ (close s).1.timerPending = s.timerPending
    ∧ (∀ n, onBinaryMessage (close s).1 n = n) := by
  unfold close onBinaryMessage
  simp [h]

/-- Witness for C2 (amended) on a session holding both resources. -/
theorem close_releases_stt_once_witness :
    (close { closed := false, sttOpen := true, timerPending := true }).1.closed = true
    ∧ (close { closed := false, sttOpen := true, timerPending := true }).1.sttOpen = false
    ∧ (close { closed := false, sttOpen := true, timerPending := true }).2 = true
    ∧ close (close { closed := false, sttOpen := true, timerPending := true }).1
        = ((close { closed := false, sttOpen := true, timerPending := true }).1, false)
    ∧ (close { closed := false, sttOpen := true, timerPending := true }).1.timerPending = true
    ∧ onBinaryMessage
        (close { closed := false, sttOpen := true, timerPending := true }).1 41 = 41 :=
  let h := close_releases_stt_once { closed := false, sttOpen := true, timerPending := true } rfl
  ⟨h.1, h.2.1, h.2.2.1, h.2.2.2.1, h.2.2.2.2.1, h.2.2.2.2.2 41⟩

/-- C3: a final transcript event whose text trims to the empty string
appends no ChatMessage (the history is unchanged) and does not invoke
response generation. -/
theorem empty_final_transcript_ignored (messages : List ChatMessage)
    (raw : String) (h : jsTrim raw = "") :
    handleFinalTranscript messages (some raw) = (messages, false) := by
  unfold handleFinalTranscript
  simp [h]

/-- Witness for C3 on a whitespace-only transcript. -/
theorem empty_final_transcript_ignored_witness :
    handleFinalTranscript [{ role := Role.system, content := "prompt" }] (some "   ")
      = ([{ role := Role.system, content := "prompt" }], false) :=
  empty_final_transcript_ignored [{ role := Role.system, content := "prompt" }] "   "
    (by decide)

/-- C8: the 16-bit normalization path is total — every byte buffer yields
exactly `byteLength / 2` samples — and a buffer of odd byte length decodes
to the same samples as the buffer with its trailing byte dropped. -/
theorem odd_buffer_drops_trailing_byte (bytes : List Nat) :
    (bytesToInt16 bytes).length = bytes.length / 2
    ∧ (bytes.length % 2 = 1 → bytesToInt16 bytes = bytesToInt16 bytes.dropLast) := by
  induction bytes using bytesToInt16.induct with
  | case1 lo hi rest ih =>
    refine ⟨by simp [bytesToInt16, ih.1]; omega, ?_⟩
    intro hodd
    cases rest with
    | nil => simp at hodd
    | cons r rs =>
      have hrodd : (r :: rs).length % 2 = 1 := by
        simp only [List.length_cons] at hodd ⊢
        omega
      calc bytesToInt16 (lo :: hi :: r :: rs)
          = decodeInt16 lo hi :: bytesToInt16 (r :: rs) := rfl
        _ = decodeInt16 lo hi :: bytesToInt16 (r :: rs).dropLast := by
            rw [ih.2 hrodd]
        _ = bytesToInt16 (lo :: hi :: r :: rs).dropLast := by
            simp [List.dropLast, bytesToInt16]
  | case2 t h =>
    cases t with
    | nil => simp [bytesToInt16]
    | cons a t' =>
      cases t' with
      | nil => simp [bytesToInt16, List.dropLast]
      | cons b r => exact absurd rfl (h a b r)

/-- Witness for C8 on a 3-byte buffer. -/
theorem odd_buffer_drops_trailing_byte_witness :
    (bytesToInt16 [1, 128, 7]).length = [1, 128, 7].length / 2
    ∧ bytesToInt16 [1, 128, 7] = bytesToInt16 ([1, 128, 7].dropLast) :=
  ⟨(odd_buffer_drops_trailing_byte [1, 128, 7]).1,
   (odd_buffer_drops_trailing_byte [1, 128, 7]).2 (by decide)⟩

/-- C1: over every inbound event sequence at most one silence timer is
pending; a speech frame always cancels a pending timer and records the time
as last-speech-time; a silence frame starts a timer exactly when no timer is
pending and speech has been heard at least once, and otherwise changes
nothing. -/
theorem silence_timer_at_most_one (events : List VadEvent) :
    (runVad events).silenceTimer ≤ 1
    ∧ (∀ st samples now, isSilent samples = false →
        handleFrameVad st samples now
          = { silenceTimer := 0, lastNonSilentTime := now })
    ∧ (∀ st samples now, isSilent samples = true → st.silenceTimer = 0 →
        st.lastNonSilentTime ≠ 0 →
        handleFrameVad st samples now = { st with silenceTimer := 1 })
    ∧ (∀ st samples now, isSilent samples = true →
        ¬(st.silenceTimer = 0 ∧ st.lastNonSilentTime ≠ 0) →
        handleFrameVad st samples now = st) := by
  refine ⟨runVad_pending_le events initVadState (by simp [initVadState]), ?_, ?_, ?_⟩
  · intro st samples now h
    unfold handleFrameVad
    simp [h]
  · intro st samples now h h0 hl
    unfold handleFrameVad
    simp [h, h0, hl]
  · intro st samples now h hc
    unfold handleFrameVad
    simp [h, hc]

/-- Witness for C1: a speech/silence/silence run keeps at most one timer; a
speech frame cancels a pending timer and records time 9; a silence frame
with no pending timer and recorded speech starts one; a silence frame with a
pending timer changes nothing. -/
theorem silence_timer_at_most_one_witness :
    (runVad [VadEvent.frame [600] 5, VadEvent.frame [] 6,
        VadEvent.frame [] 7]).silenceTimer ≤ 1
    ∧ handleFrameVad { silenceTimer := 1, lastNonSilentTime := 3 } [600] 9
        = { silenceTimer := 0, lastNonSilentTime := 9 }
    ∧ handleFrameVad { silenceTimer := 0, lastNonSilentTime := 5 } [] 9
        = { silenceTimer := 1, lastNonSilentTime := 5 }
    ∧ handleFrameVad { silenceTimer := 1, lastNonSilentTime := 5 } [] 9
        = { silenceTimer := 1, lastNonSilentTime := 5 } :=
  let h := silence_timer_at_most_one
    [VadEvent.frame [600] 5, VadEvent.frame [] 6, VadEvent.frame [] 7]
  ⟨h.1,
   h.2.1 { silenceTimer := 1, lastNonSilentTime := 3 } [600] 9
     (by simp [isSilent_eq_natCmp]),
   h.2.2.1 { silenceTimer := 0, lastNonSilentTime := 5 } [] 9 rfl rfl (by decide),
   h.2.2.2 { silenceTimer := 1, lastNonSilentTime := 5 } [] 9 rfl (by decide)⟩

/-- C4: over every error-free LLM delta stream, generation returns the trim
of the arrival-order concatenation of both recognized delta shapes
(`delta.content` then `output_text.delta`, both checked on every fragment),
substituting the fixed fallback string exactly when the trimmed
concatenation is empty. -/
theorem callLlm_concat_trim_fallback (chunks : List LlmChunk) :
    callLlm (chunks.map LlmStreamItem.chunk)
      = (if jsTrim (deltasText chunks) = "" then llmFallback
         else jsTrim (deltasText chunks))
    ∧ llmFallback = "Sorry, I had a problem generating a response." := by
  refine ⟨?_, rfl⟩
  simp only [callLlm, llmAccum_chunks chunks "", strEmptyAppend]

/-- C9: when the LLM delta stream throws mid-iteration, the error is caught
inside generation: the result is the trimmed concatenation of the deltas
received before the failure (the fallback only when that partial text is
empty), no exception reaches the session, and `respondToUser` still appends
the partial reply to the history and hands it to TTS. -/
theorem callLlm_mid_stream_error_partial (chunksBefore : List LlmChunk)
    (rest : List LlmStreamItem) (messages : List ChatMessage) :
    callLlm (chunksBefore.map LlmStreamItem.chunk ++ LlmStreamItem.streamError :: rest)
      = (if jsTrim (deltasText chunksBefore) = "" then llmFallback
         else jsTrim (deltasText chunksBefore))
    ∧ respondToUser messages false
        (chunksBefore.map LlmStreamItem.chunk ++ LlmStreamItem.streamError :: rest)
      = (messages ++ [(⟨Role.assistant,
            callLlm (chunksBefore.map LlmStreamItem.chunk
              ++ LlmStreamItem.streamError :: rest)⟩ : ChatMessage)],
         some (callLlm (chunksBefore.map LlmStreamItem.chunk
              ++ LlmStreamItem.streamError :: rest))) := by
  constructor
  · simp only [callLlm, llmAccum_error chunksBefore rest "", strEmptyAppend]
  · rfl

/-- C5 counterexample: the downmix of the in-range stereo pair (-100, -101)
is -101 (floor of -100.5), whereas the integer average truncated toward zero
is -100 — the downmix rule is not truncation toward zero. -/
theorem downmix_not_trunc_toward_zero :
    downmixStereo [-100, -101] = [-101]
    ∧ Int.tdiv (-100 + -101) 2 = -100
    ∧ ((-101 : Int) ≠ -100) := by
  decide

/-- C5 amended: for every stereo frame of in-range 16-bit samples, each mono
sample is the integer average of its two channel samples rounded toward
negative infinity (the floor of the exact average, per the source's
`Math.floor`); in particular (100, 200) yields 150 and (-100, 100) yields 0,
and the rule is deterministic. -/
theorem downmix_floor_average (samples : List Int) (i : Nat)
    (hrange : ∀ s ∈ samples, -32768 ≤ s ∧ s ≤ 32767)
    (hi : i < samples.length / 2) :
    (downmixStereo samples).getD i 0
      = ⌊((samples.getD (i * 2) 0 + samples.getD (i * 2 + 1) 0 : ℤ) : ℚ) / 2⌋
    ∧ (downmixStereo samples).length = samples.length / 2
    ∧ downmixStereo [100, 200] = [150]
    ∧ downmixStereo [-100, 100] = [0] := by
  refine ⟨?_, by simp [downmixStereo], by decide, by decide⟩
  have h2i : i * 2 < samples.length := by omega
  have h2i1 : i * 2 + 1 < samples.length := by omega
  have hmem : samples.getD (i * 2) 0 ∈ samples := by
    rw [List.getD_eq_getElem samples 0 h2i]
    exact List.getElem_mem h2i
  have hmem1 : samples.getD (i * 2 + 1) 0 ∈ samples := by
    rw [List.getD_eq_getElem samples 0 h2i1]
    exact List.getElem_mem h2i1
  have ha := hrange _ hmem
  have hb := hrange _ hmem1
  have hget : (downmixStereo samples).getD i 0
      = toInt16 ((samples.getD (i * 2) 0 + samples.getD (i * 2 + 1) 0) / 2) := by
    simp [downmixStereo, List.getD, hi]
  have hwrap : toInt16 ((samples.getD (i * 2) 0 + samples.getD (i * 2 + 1) 0) / 2)
      = (samples.getD (i * 2) 0 + samples.getD (i * 2 + 1) 0) / 2 := by
    unfold toInt16
    omega
  have hfloor : ((samples.getD (i * 2) 0 + samples.getD (i * 2 + 1) 0 : ℤ)) / 2
      = ⌊((samples.getD (i * 2) 0 + samples.getD (i * 2 + 1) 0 : ℤ) : ℚ) / 2⌋ := by
    have h := Rat.floor_intCast_div_natCast
      (samples.getD (i * 2) 0 + samples.getD (i * 2 + 1) 0) 2
    simp only [Nat.cast_ofNat] at h
    exact h.symm
  rw [hget, hwrap, hfloor]

/-- Witness for C5 (amended) on the frame [100, 200, -100, -101] at pair
index 1. -/
theorem downmix_floor_average_witness :
    (downmixStereo [100, 200, -100, -101]).getD 1 0
      = ⌊((([100, 200, -100, -101] : List Int).getD (1 * 2) 0
            + ([100, 200, -100, -101] : List Int).getD (1 * 2 + 1) 0 : ℤ) : ℚ) / 2⌋
    ∧ (downmixStereo [100, 200, -100, -101]).length
        = ([100, 200, -100, -101] : List Int).length / 2
    ∧ downmixStereo [100, 200] = [150]
    ∧ downmixStereo [-100, 100] = [0] :=
  downmix_floor_average [100, 200, -100, -101] 1 (by decide) (by decide)

/-- C6: for distinct positive rates, resampling yields
`⌊inputLength / (sourceRate/targetRate)⌋` output samples, and output sample
`i` copies the input sample at the nearest lower index
`⌊i * sourceRate/targetRate⌋`, any out-of-range index yielding a zero
sample. -/
theorem resample_length_and_nearest_lower (input : List Int)
    (inputRate outputRate : Nat) (hne : inputRate ≠ outputRate)
    (hin : 0 < inputRate) (hout : 0 < outputRate) :
    ((resample input inputRate outputRate).length : ℤ)
      = ⌊(input.length : ℚ) / ((inputRate : ℚ) / (outputRate : ℚ))⌋
    ∧ ∀ i : Nat, i < (resample input inputRate outputRate).length →
        (resample input inputRate outputRate).getD i 0
          = (if (⌊(i : ℚ) * ((inputRate : ℚ) / (outputRate : ℚ))⌋).toNat < input.length
             then input.getD (⌊(i : ℚ) * ((inputRate : ℚ) / (outputRate : ℚ))⌋).toNat 0
             else 0) := by
  have hinq : ((inputRate : ℚ)) ≠ 0 := Nat.cast_ne_zero.mpr (Nat.pos_iff_ne_zero.mp hin)
  have houtq : ((outputRate : ℚ)) ≠ 0 := Nat.cast_ne_zero.mpr (Nat.pos_iff_ne_zero.mp hout)
  have hlen : (resample input inputRate outputRate).length
      = input.length * outputRate / inputRate := by
    simp [resample, hne]
  have hidx : ∀ i : Nat,
      (⌊(i : ℚ) * ((inputRate : ℚ) / (outputRate : ℚ))⌋).toNat
        = i * inputRate / outputRate := by
    intro i
    have hq : (i : ℚ) * ((inputRate : ℚ) / (outputRate : ℚ))
        = ((i * inputRate : ℕ) : ℚ) / ((outputRate : ℕ) : ℚ) := by
      push_cast
      ring
    rw [hq, Rat.floor_natCast_div_natCast, ← Int.natCast_div, Int.toNat_natCast]
  constructor
  · have hq : (input.length : ℚ) / ((inputRate : ℚ) / (outputRate : ℚ))
        = ((input.length * outputRate : ℕ) : ℚ) / ((inputRate : ℕ) : ℚ) := by
      rw [div_div_eq_mul_div]
      push_cast
      ring
    rw [hlen, hq, Rat.floor_natCast_div_natCast, ← Int.natCast_div]
  · intro i hilt
    rw [hlen] at hilt
    rw [hidx i]
    simp [resample, hne, List.getD, hilt]

/-- Witness for C6: resampling [10, 20, 30, 40] from rate 2 to rate 1 yields
2 samples, and output sample 1 copies input sample ⌊1·2⌋ = 2. -/
theorem resample_length_and_nearest_lower_witness :
    ((resample [10, 20, 30, 40] 2 1).length : ℤ)
      = ⌊(([10, 20, 30, 40] : List Int).length : ℚ) / (((2 : ℕ) : ℚ) / ((1 : ℕ) : ℚ))⌋
    ∧ (resample [10, 20, 30, 40] 2 1).getD 1 0
        = (if (⌊((1 : ℕ) : ℚ) * (((2 : ℕ) : ℚ) / ((1 : ℕ) : ℚ))⌋).toNat
              < ([10, 20, 30, 40] : List Int).length
           then ([10, 20, 30, 40] : List Int).getD
              (⌊((1 : ℕ) : ℚ) * (((2 : ℕ) : ℚ) / ((1 : ℕ) : ℚ))⌋).toNat 0
           else 0) :=
  let h := resample_length_and_nearest_lower [10, 20, 30, 40] 2 1
    (by decide) (by decide) (by decide)
  ⟨h.1, h.2 1 (by decide)⟩

end MediaGateway
